import Mathlib

/-!
Shallow embedding of `src/job/http.go` from db1000n: the fastHTTP job loop
(`fastHTTPJob`), the single-shot variant (`singleRequestJob`), the
per-exchange send helper (`sendFastHTTPRequest`) and the response header and
cookie loaders (`headerLoaderFunc`, `cookieLoaderFunc`).

External collaborators of the file (template evaluation and decoding, the
fasthttp transport client `client.Do`, the throttle gate
`jobConfig.Next(ctx)`, cookie byte parsing, the ambient clock) are modelled
as oracle inputs supplied per iteration.  The embedding records every
observable action of the code — traffic accounting writes, transport calls,
per-exchange outcome counters, backoff transitions, sleeps and log
emissions — in an event trace, in program order.
-/

namespace DB1000N

/-- Result of materializing one request: the concrete `http.RequestConfig`
decoded from the executed template (target path, method, host, body are the
fields observable through the code under analysis). -/
structure RequestConfig where
  path : String
  method : String
  host : String
  body : String
deriving DecidableEq

/-- Log emissions of `http.go`: the `log.Printf("Attacking %v", ...)` and
`log.Printf("Sent single http request to %v", ...)` announcements, the
`logger.Debug("error sending request", zap.Error(err), zap.Any("args", args))`
failure log — whose `args` field is the whole job args and therefore carries
the target path, represented here by that path — and the
`logger.Debug("cookie from the request expired", ...)` log. -/
inductive LogEvent where
  | printfAttacking (path : String)
  | printfSentSingle (path : String)
  | debugSendError (err : String) (argsPath : String)
  | debugCookieExpired (key : String)
deriving DecidableEq

/-- Observable actions of the job code, recorded in program order:
`trafficMonitor.Add` / `metrics.Default.Write(metrics.Traffic, ...)` is
`attemptedAdd`, `processedTrafficMonitor.Add` /
`metrics.Default.Write(metrics.ProcessedTraffic, ...)` is `deliveredAdd`,
`client.Do` is `clientDo` with its outcome, `metrics.IncHTTP` is `incHTTP`,
and backoff transitions, `utils.Sleep`, and log calls are recorded as
themselves. -/
inductive Event where
  | attemptedAdd (size : Nat)
  | deliveredAdd (size : Nat)
  | clientDo (host method : String) (success : Bool)
  | incHTTP (host method : String) (success : Bool)
  | backoffIncrement
  | backoffReset
  | sleep (timeout : Nat)
  | logE (e : LogEvent)
deriving DecidableEq

/-- Modelled from the spec: the configuration of `utils.BackoffController`
(package `src/utils` is not among the analysed sources) — minimum delay,
maximum delay and growth factor, per section 4.1 of the specification. -/
structure BackoffConfig where
  minWait : Nat
  maxWait : Nat
  factor : Nat
deriving DecidableEq

/-- Modelled from the spec: the backoff controller state is the consecutive
failure count; `Increment` compounds the wait, `Reset` returns to baseline. -/
structure BackoffController where
  count : Nat
deriving DecidableEq

/-- Modelled from the spec: `increment()` transitions to a longer wait and
returns the handle so the caller can read the new timeout. -/
def BackoffController.Increment (b : BackoffController) : BackoffController :=
  ⟨b.count + 1⟩

/-- Modelled from the spec: `reset()` returns the state to baseline. -/
def BackoffController.Reset (_ : BackoffController) : BackoffController :=
  ⟨0⟩

/-- Modelled from the spec: multiplicative growth from the minimum delay,
capped at the configured maximum (three consecutive failures with minimum 100
and factor 2 give waits 100, 200, 400). -/
def BackoffController.GetTimeout (cfg : BackoffConfig) (b : BackoffController) : Nat :=
  Nat.min cfg.maxWait (cfg.minWait * cfg.factor ^ (b.count - 1))

/-- Embedding of `sendFastHTTPRequest`: it calls `client.Do` (outcome supplied
by the oracle `doErr`, `none` meaning success); on error it increments the
`metrics.StatusFail` counter keyed by the request host and method and returns
the error unchanged, otherwise it increments the `metrics.StatusSuccess`
counter with the same key and returns `none`. -/
def sendFastHTTPRequest (host method : String) (doErr : Option String) :
    Option String × List Event :=
  match doErr with
  | some e => (some e, [.clientDo host method false, .incHTTP host method false])
  | none => (none, [.clientDo host method true, .incHTTP host method true])

/-- Oracle inputs for one iteration of the `fastHTTPJob` loop: the value of
the throttle gate `jobConfig.Next(ctx)`, the outcome of
`utils.Decode(requestTpl.Execute(logger, ctx), &requestConfig)`, and the
outcome of `client.Do` for this iteration. -/
structure IterInput where
  next : Bool
  tpl : Except String RequestConfig
  doErr : Option String

/-- Events of the body of one `fastHTTPJob` loop iteration after successful
template evaluation: `dataSize := http.InitRequest(...)` is recorded to the
attempted stream via `trafficMonitor.Add`, the request is sent via
`sendFastHTTPRequest`, and then either the failure branch runs (debug log
carrying `args`, backoff increment, sleep for the incremented timeout) or the
success branch runs (`processedTrafficMonitor.Add(dataSize)`, backoff reset). -/
def iterEvents (size : RequestConfig → Nat) (argsPath : String) (cfg : BackoffConfig)
    (b : BackoffController) (rc : RequestConfig) (doErr : Option String) : List Event :=
  .attemptedAdd (size rc) :: ((sendFastHTTPRequest rc.host rc.method doErr).2 ++
    match doErr with
    | some e => [.logE (.debugSendError e argsPath), .backoffIncrement,
        .sleep (BackoffController.GetTimeout cfg (BackoffController.Increment b))]
    | none => [.deliveredAdd (size rc), .backoffReset])

/-- Backoff state after one iteration body: incremented on send failure, reset
on success. -/
def iterBackoff (b : BackoffController) (doErr : Option String) : BackoffController :=
  match doErr with
  | some _ => BackoffController.Increment b
  | none => BackoffController.Reset b

/-- The `for jobConfig.Next(ctx)` loop of `fastHTTPJob`.  Iteration oracles are
consumed in order; an exhausted oracle list stands for the cancellation token
denying continuation (the gate evaluating false).  Template decode failure
returns the wrapped error immediately; otherwise the iteration body runs and
the loop continues with the updated backoff state.  A normal exit returns
`(nil, nil)`, here `.ok ()`. -/
def fastHTTPLoop (size : RequestConfig → Nat) (argsPath : String) (cfg : BackoffConfig)
    (b : BackoffController) : List IterInput → List Event × Except String Unit
  | [] => ([], .ok ())
  | inp :: rest =>
    if inp.next then
      match inp.tpl with
      | .error e => ([], .error ("error executing request template: " ++ e))
      | .ok rc =>
        let r := fastHTTPLoop size argsPath cfg (iterBackoff b inp.doErr) rest
        (iterEvents size argsPath cfg b rc inp.doErr ++ r.1, r.2)
    else ([], .ok ())

/-- Configuration-time inputs of `fastHTTPJob`: the outcome of
`getHTTPJobConfigs` (job config parsing, client config decoding, request
template parsing — any failure collapses to the returned error), the
`isInEncryptedContext(ctx)` flag, the target path found in the job args
(`jobConfig.Request["path"]`, also carried inside `args`), and the resolved
backoff configuration. -/
structure JobSetup where
  configErr : Option String
  encrypted : Bool
  argsPath : String
  backoffCfg : BackoffConfig

/-- Embedding of `fastHTTPJob`: configuration failure is returned directly;
otherwise the `Attacking` announcement is printed unless the context is
encrypted, and the loop runs with a fresh backoff controller. -/
def fastHTTPJob (size : RequestConfig → Nat) (setup : JobSetup)
    (inputs : List IterInput) : List Event × Except String Unit :=
  match setup.configErr with
  | some e => ([], .error e)
  | none =>
    let pre : List Event :=
      if setup.encrypted then [] else [.logE (.printfAttacking setup.argsPath)]
    let r := fastHTTPLoop size setup.argsPath setup.backoffCfg ⟨0⟩ inputs
    (pre ++ r.1, r.2)

/-- A response cookie as seen after `fasthttp.Cookie.ParseBytes`: its value
and its expiry, `none` standing for the `fasthttp.CookieExpireUnlimited`
sentinel and `some t` for an absolute expiry instant. -/
structure ParsedCookie where
  value : String
  expire : Option Nat
deriving DecidableEq

/-- Go map assignment `m[k] = v` on an association list: overwrites the
binding of `k` when present, appends it otherwise. -/
def assocSet (m : List (String × String)) (k v : String) : List (String × String) :=
  match m with
  | [] => [(k, v)]
  | (k1, v1) :: rest => if k1 = k then (k, v) :: rest else (k1, v1) :: assocSet rest k v

/-- Go map read `m[k]` on an association list built by `assocSet`. -/
def lookupA (m : List (String × String)) (k : String) : Option String :=
  match m with
  | [] => none
  | (k1, v1) :: rest => if k1 = k then some v1 else lookupA rest k

/-- Embedding of the closure returned by `cookieLoaderFunc` applied to one
response cookie.  The raw value is parsed by `fasthttp` (the parse outcome is
the oracle: `none` is a parse error, which returns with the map unchanged and
no log); a parsed cookie whose expiry differs from the unlimited sentinel and
is before `now` is dropped with a debug log; otherwise the cookie value is
stored under the key. -/
def cookieLoaderFunc (now : Nat) (m : List (String × String)) :
    String × Option ParsedCookie → List (String × String) × List LogEvent
  | (_, none) => (m, [])
  | (k, some c) =>
    match c.expire with
    | some t =>
      if t < now then (m, [.debugCookieExpired k]) else (assocSet m k c.value, [])
    | none => (assocSet m k c.value, [])

/-- `resp.Header.VisitAllCookie(cookieLoaderFunc(cookies, logger))`: fold the
cookie loader over the response cookies, starting from the empty map, and
collect the debug logs. -/
def loadCookies (now : Nat) (cs : List (String × Option ParsedCookie)) :
    List (String × String) × List LogEvent :=
  cs.foldl
    (fun acc entry =>
      let r := cookieLoaderFunc now acc.1 entry
      (r.1, acc.2 ++ r.2))
    ([], [])

/-- Embedding of the closure returned by `headerLoaderFunc`: store the header
value under the header key. -/
def headerLoaderFunc (m : List (String × String)) (kv : String × String) :
    List (String × String) :=
  assocSet m kv.1 kv.2

/-- `resp.Header.VisitAll(headerLoaderFunc(headers))`: fold the header loader
over the response headers, starting from the empty map. -/
def loadHeaders (hs : List (String × String)) : List (String × String) :=
  hs.foldl headerLoaderFunc []

/-- Lookup that keeps the LAST binding of a key (Go map semantics when the
same key is visited twice: the later write wins). -/
def lookupLast (hs : List (String × String)) (k : String) : Option String :=
  match hs with
  | [] => none
  | (k1, v1) :: rest =>
    match lookupLast rest k with
    | some v => some v
    | none => if k1 = k then some v1 else none

/-- The raw fasthttp response as observed by `singleRequestJob`: body, status
code, headers as visited by `VisitAll`, and cookies as visited by
`VisitAllCookie` (each with its parse outcome). -/
structure RawResponse where
  body : String
  statusCode : Nat
  headers : List (String × String)
  cookies : List (String × Option ParsedCookie)

/-- The response snapshot returned by `singleRequestJob` under the
`"response"` key. -/
structure Snapshot where
  body : String
  statusCode : Nat
  headers : List (String × String)
  cookies : List (String × String)
deriving DecidableEq

/-- The result map returned by `singleRequestJob`: the response snapshot and
the embedded transport error under the `"error"` key. -/
structure SingleResult where
  response : Snapshot
  error : Option String
deriving DecidableEq

/-- Oracle inputs of one `singleRequestJob` invocation: the outcome of
`getHTTPJobConfigs`, the outcome of template execution and decoding, the
`isInEncryptedContext(ctx)` flag, the `client.Do` outcome, the raw response,
and the current time used for cookie expiry checks. -/
structure SingleSetup where
  configErr : Option String
  tpl : Except String RequestConfig
  encrypted : Bool
  doErr : Option String
  resp : RawResponse
  now : Nat

/-- Embedding of `singleRequestJob`: configuration or template failure is
returned as the function error; otherwise the single-request announcement is
printed unless the context is encrypted, attempted traffic is written, the
request is sent, delivered traffic is written only on success, and the
response snapshot (body, status code, headers, non-expired cookies) is
returned together with the embedded transport error while the function error
is nil. -/
def singleRequestJob (size : RequestConfig → Nat) (s : SingleSetup) :
    List Event × Except String SingleResult :=
  match s.configErr with
  | some e => ([], .error e)
  | none =>
    match s.tpl with
    | .error e => ([], .error e)
    | .ok rc =>
      let pre : List Event :=
        if s.encrypted then [] else [.logE (.printfSentSingle rc.path)]
      let ds := size rc
      let send := sendFastHTTPRequest rc.host rc.method s.doErr
      let post : List Event :=
        match send.1 with
        | none => [.deliveredAdd ds]
        | some _ => []
      let ck := loadCookies s.now s.resp.cookies
      (pre ++ .attemptedAdd ds :: (send.2 ++ post ++ ck.2.map Event.logE),
        .ok { response := { body := s.resp.body, statusCode := s.resp.statusCode,
                            headers := loadHeaders s.resp.headers, cookies := ck.1 },
              error := send.1 })

/-- Total of all attempted-traffic writes in a trace. -/
def attemptedTotal : List Event → Nat
  | [] => 0
  | .attemptedAdd n :: rest => n + attemptedTotal rest
  | _ :: rest => attemptedTotal rest

/-- Total of all delivered-traffic writes in a trace. -/
def deliveredTotal : List Event → Nat
  | [] => 0
  | .deliveredAdd n :: rest => n + deliveredTotal rest
  | _ :: rest => deliveredTotal rest

/-- The log emissions of a trace, in order. -/
def logsOf : List Event → List LogEvent
  | [] => []
  | .logE e :: rest => e :: logsOf rest
  | _ :: rest => logsOf rest

/-- Whether a log emission carries the target path: the two announcement
printfs name the path directly, and the send-failure debug log carries the
whole job args, which include it. -/
def mentionsTarget (target : String) : LogEvent → Bool
  | .printfAttacking p => p == target
  | .printfSentSingle p => p == target
  | .debugSendError _ argsPath => argsPath == target
  | .debugCookieExpired _ => false

/-- Number of transport calls in a trace. -/
def countClientDo : List Event → Nat
  | [] => 0
  | .clientDo _ _ _ :: rest => 1 + countClientDo rest
  | _ :: rest => countClientDo rest

/-- Number of per-exchange outcome counter increments in a trace. -/
def countIncHTTP : List Event → Nat
  | [] => 0
  | .incHTTP _ _ _ :: rest => 1 + countIncHTTP rest
  | _ :: rest => countIncHTTP rest

/-- Whether a template decode outcome is a success. -/
def tplOk : Except String RequestConfig → Bool
  | .ok _ => true
  | .error _ => false

/-- The payload size materialized by an iteration (0 when its template
fails, in which case no request is built). -/
def materializedSize (size : RequestConfig → Nat) (inp : IterInput) : Nat :=
  match inp.tpl with
  | .ok rc => size rc
  | .error _ => 0

/-- The payload size delivered by an iteration: its materialized size when the
send succeeded, 0 otherwise. -/
def deliveredSize (size : RequestConfig → Nat) (inp : IterInput) : Nat :=
  match inp.doErr with
  | none => materializedSize size inp
  | some _ => 0

/-- A concrete payload-size function for the executable instances below:
the materialized payload size of a request descriptor. -/
def demoSize (rc : RequestConfig) : Nat :=
  rc.method.length + rc.path.length + rc.body.length

/-- A concrete request descriptor for the executable instances below. -/
def demoRC : RequestConfig :=
  ⟨"/secret-target", "GET", "example.com", "payload"⟩

/-- A concrete backoff configuration (the scenario of the specification:
minimum 100, maximum 3200, factor 2). -/
def demoCfg : BackoffConfig :=
  ⟨100, 3200, 2⟩

/-- A concrete job setup running in the encrypted (privileged) context. -/
def demoEncSetup : JobSetup :=
  ⟨none, true, "/secret-target", demoCfg⟩

/-- A concrete iteration-oracle list: one successful iteration followed by one
whose send fails. -/
def demoInputs : List IterInput :=
  [⟨true, .ok demoRC, none⟩, ⟨true, .ok demoRC, some "connection refused"⟩]

/-- A concrete raw response with one live cookie, one expired cookie, one
unparseable cookie and one unlimited-expiry cookie. -/
def demoResp : RawResponse :=
  ⟨"hello", 200, [("Server", "x"), ("Date", "y")],
    [("live", some ⟨"a", some 50⟩), ("old", some ⟨"b", some 3⟩),
     ("junk", none), ("forever", some ⟨"c", none⟩)]⟩

/-- A concrete single-shot setup whose configuration and template succeed and
whose transport call fails. -/
def demoSingleFail : SingleSetup :=
  ⟨none, .ok demoRC, false, some "timeout", demoResp, 10⟩

/-- A concrete single-shot setup whose configuration and template succeed and
whose transport call succeeds. -/
def demoSingleOk : SingleSetup :=
  ⟨none, .ok demoRC, true, none, demoResp, 10⟩

theorem attemptedTotal_append (a b : List Event) :
    attemptedTotal (a ++ b) = attemptedTotal a + attemptedTotal b := by
  induction a with
  | nil => simp [attemptedTotal]
  | cons x rest ih =>
    cases x <;> first
      | (simp [attemptedTotal, ih]; omega)
      | simp [attemptedTotal, ih]

theorem deliveredTotal_append (a b : List Event) :
    deliveredTotal (a ++ b) = deliveredTotal a + deliveredTotal b := by
  induction a with
  | nil => simp [deliveredTotal]
  | cons x rest ih =>
    cases x <;> first
      | (simp [deliveredTotal, ih]; omega)
      | simp [deliveredTotal, ih]

theorem countClientDo_append (a b : List Event) :
    countClientDo (a ++ b) = countClientDo a + countClientDo b := by
  induction a with
  | nil => simp [countClientDo]
  | cons x rest ih =>
    cases x <;> first
      | (simp [countClientDo, ih]; omega)
      | simp [countClientDo, ih]

theorem logsOf_append (a b : List Event) :
    logsOf (a ++ b) = logsOf a ++ logsOf b := by
  induction a with
  | nil => simp [logsOf]
  | cons x rest ih => cases x <;> simp [logsOf, ih]

theorem attemptedTotal_iterEvents (size : RequestConfig → Nat) (argsPath : String)
    (cfg : BackoffConfig) (b : BackoffController) (rc : RequestConfig)
    (doErr : Option String) :
    attemptedTotal (iterEvents size argsPath cfg b rc doErr) = size rc := by
  cases doErr
  · simp [iterEvents, sendFastHTTPRequest, attemptedTotal]
  · simp [iterEvents, sendFastHTTPRequest, attemptedTotal]

theorem deliveredTotal_iterEvents (size : RequestConfig → Nat) (argsPath : String)
    (cfg : BackoffConfig) (b : BackoffController) (rc : RequestConfig)
    (doErr : Option String) :
    deliveredTotal (iterEvents size argsPath cfg b rc doErr) =
      match doErr with
      | none => size rc
      | some _ => 0 := by
  cases doErr
  · simp [iterEvents, sendFastHTTPRequest, deliveredTotal]
  · simp [iterEvents, sendFastHTTPRequest, deliveredTotal]

theorem countClientDo_iterEvents (size : RequestConfig → Nat) (argsPath : String)
    (cfg : BackoffConfig) (b : BackoffController) (rc : RequestConfig)
    (doErr : Option String) :
    countClientDo (iterEvents size argsPath cfg b rc doErr) = 1 := by
  cases doErr
  · simp [iterEvents, sendFastHTTPRequest, countClientDo]
  · simp [iterEvents, sendFastHTTPRequest, countClientDo]

theorem logsOf_iterEvents (size : RequestConfig → Nat) (argsPath : String)
    (cfg : BackoffConfig) (b : BackoffController) (rc : RequestConfig)
    (doErr : Option String) :
    logsOf (iterEvents size argsPath cfg b rc doErr) =
      match doErr with
      | some e => [.debugSendError e argsPath]
      | none => [] := by
  cases doErr <;>
    simp [iterEvents, sendFastHTTPRequest, logsOf]

/-- C9: `sendFastHTTPRequest` increments exactly one per-exchange outcome
counter, keyed by the request host and method: the fail counter exactly when
`client.Do` returned an error (which is returned unchanged), the success
counter exactly when it returned nil (and nil is returned). -/
theorem sendFastHTTPRequest_outcome_counter (host method : String)
    (doErr : Option String) :
    (sendFastHTTPRequest host method doErr).1 = doErr ∧
    countIncHTTP (sendFastHTTPRequest host method doErr).2 = 1 ∧
    (Event.incHTTP host method false ∈ (sendFastHTTPRequest host method doErr).2 ↔
      doErr.isSome = true) ∧
    (Event.incHTTP host method true ∈ (sendFastHTTPRequest host method doErr).2 ↔
      doErr = none) ∧
    (∀ h2 m2 st, Event.incHTTP h2 m2 st ∈ (sendFastHTTPRequest host method doErr).2 →
      h2 = host ∧ m2 = method) := by
  cases doErr <;> simp [sendFastHTTPRequest, countIncHTTP]

theorem sendFastHTTPRequest_outcome_counter_witness :
    (sendFastHTTPRequest "example.com" "GET" (some "refused")).1 = some "refused" ∧
    Event.incHTTP "example.com" "GET" false ∈
      (sendFastHTTPRequest "example.com" "GET" (some "refused")).2 := by
  have h := sendFastHTTPRequest_outcome_counter "example.com" "GET" (some "refused")
  exact ⟨h.1, h.2.2.1.mpr (by decide)⟩

/-- C1: in every loop iteration and in every single-shot invocation, the
materialized payload size is written to the attempted-traffic stream strictly
before the transport call, and the same size is written to the
delivered-traffic stream only after a successful transport call; a failed
call produces no delivered-traffic write.  (The loop trace is the
concatenation of the per-iteration traces, as the first conjunct records.) -/
theorem attempted_before_send_delivered_after_success :
    (∀ size argsPath cfg b inp rest rc, inp.next = true → inp.tpl = .ok rc →
      (fastHTTPLoop size argsPath cfg b (inp :: rest)).1 =
        iterEvents size argsPath cfg b rc inp.doErr ++
          (fastHTTPLoop size argsPath cfg (iterBackoff b inp.doErr) rest).1) ∧
    (∀ size argsPath cfg b rc doErr,
      (iterEvents size argsPath cfg b rc doErr).get? 0 =
        some (.attemptedAdd (size rc)) ∧
      (iterEvents size argsPath cfg b rc doErr).get? 1 =
        some (.clientDo rc.host rc.method doErr.isNone) ∧
      (doErr = none → (iterEvents size argsPath cfg b rc doErr).get? 3 =
        some (.deliveredAdd (size rc))) ∧
      (∀ e, doErr = some e →
        ∀ n, Event.deliveredAdd n ∉ iterEvents size argsPath cfg b rc doErr)) ∧
    (∀ size s rc, s.configErr = none → s.tpl = .ok rc →
      (singleRequestJob size s).1.get? (if s.encrypted then 0 else 1) =
        some (.attemptedAdd (size rc)) ∧
      (singleRequestJob size s).1.get? (if s.encrypted then 1 else 2) =
        some (.clientDo rc.host rc.method s.doErr.isNone) ∧
      (s.doErr = none → (singleRequestJob size s).1.get? (if s.encrypted then 3 else 4) =
        some (.deliveredAdd (size rc))) ∧
      (∀ e, s.doErr = some e →
        ∀ n, Event.deliveredAdd n ∉ (singleRequestJob size s).1)) := by
  refine ⟨?_, ?_, ?_⟩
  · intro size argsPath cfg b inp rest rc hnext htpl
    simp [fastHTTPLoop, hnext, htpl]
  · intro size argsPath cfg b rc doErr
    refine ⟨?_, ?_, ?_, ?_⟩
    · cases doErr <;> rfl
    · cases doErr <;> rfl
    · intro h; subst h; rfl
    · intro e h n; subst h
      simp [iterEvents, sendFastHTTPRequest]
  · intro size s rc hc ht
    refine ⟨?_, ?_, ?_, ?_⟩
    · cases henc : s.encrypted <;> cases hdo : s.doErr <;>
        simp [singleRequestJob, hc, ht, henc, hdo, sendFastHTTPRequest]
    · cases henc : s.encrypted <;> cases hdo : s.doErr <;>
        simp [singleRequestJob, hc, ht, henc, hdo, sendFastHTTPRequest]
    · intro hd
      cases henc : s.encrypted <;>
        simp [singleRequestJob, hc, ht, henc, hd, sendFastHTTPRequest]
    · intro e hd n
      cases henc : s.encrypted <;>
        simp [singleRequestJob, hc, ht, henc, hd, sendFastHTTPRequest]

theorem attempted_before_send_delivered_after_success_witness :
    (iterEvents demoSize "/secret-target" demoCfg ⟨0⟩ demoRC (some "refused")).get? 0 =
      some (.attemptedAdd (demoSize demoRC)) ∧
    (∀ n, Event.deliveredAdd n ∉
      iterEvents demoSize "/secret-target" demoCfg ⟨0⟩ demoRC (some "refused")) ∧
    (singleRequestJob demoSize demoSingleOk).1.get? 3 =
      some (.deliveredAdd (demoSize demoRC)) := by
  have h := attempted_before_send_delivered_after_success
  refine ⟨(h.2.1 demoSize "/secret-target" demoCfg ⟨0⟩ demoRC (some "refused")).1,
    (h.2.1 demoSize "/secret-target" demoCfg ⟨0⟩ demoRC (some "refused")).2.2.2
      "refused" rfl, ?_⟩
  have h3 := (h.2.2 demoSize demoSingleOk demoRC rfl rfl).2.2.1 rfl
  simpa [demoSingleOk] using h3

/-- C2: in the loop iteration body, the backoff sleep — for the timeout read
from the freshly incremented controller — happens only in the failure branch
(after the transport call), and the success branch resets the controller and
contains no sleep, so the loop proceeds directly to the next gate check. -/
theorem backoff_sleep_only_after_failure :
    ∀ size argsPath cfg b rc,
    (∀ e,
      (iterEvents size argsPath cfg b rc (some e)).get? 1 =
        some (.clientDo rc.host rc.method false) ∧
      (iterEvents size argsPath cfg b rc (some e)).get? 5 =
        some (.sleep (BackoffController.GetTimeout cfg (BackoffController.Increment b))) ∧
      iterBackoff b (some e) = BackoffController.Increment b ∧
      Event.backoffReset ∉ iterEvents size argsPath cfg b rc (some e)) ∧
    ((∀ t, Event.sleep t ∉ iterEvents size argsPath cfg b rc none) ∧
      Event.backoffReset ∈ iterEvents size argsPath cfg b rc none ∧
      iterBackoff b none = BackoffController.Reset b) := by
  intro size argsPath cfg b rc
  refine ⟨fun e => ⟨rfl, rfl, rfl, ?_⟩, ⟨?_, ?_, rfl⟩⟩
  · simp [iterEvents, sendFastHTTPRequest]
  · intro t; simp [iterEvents, sendFastHTTPRequest]
  · simp [iterEvents, sendFastHTTPRequest]

theorem backoff_sleep_only_after_failure_witness :
    (iterEvents demoSize "/t" demoCfg ⟨0⟩ demoRC (some "refused")).get? 5 =
      some (.sleep 100) ∧
    (∀ t, Event.sleep t ∉ iterEvents demoSize "/t" demoCfg ⟨2⟩ demoRC none) := by
  have h := backoff_sleep_only_after_failure demoSize "/t" demoCfg ⟨0⟩ demoRC
  have h2 := backoff_sleep_only_after_failure demoSize "/t" demoCfg ⟨2⟩ demoRC
  exact ⟨(h.1 "refused").2.1, h2.2.1⟩

/-- C6: after any run of the loop in which every iteration passed the gate
and materialized its request, the attempted-traffic total is the sum of all
materialized payload sizes regardless of send outcomes, the delivered-traffic
total is the sum over exactly the iterations whose send succeeded, and the
delivered total never exceeds the attempted total. -/
theorem fastHTTPLoop_traffic_totals (size : RequestConfig → Nat) (argsPath : String)
    (cfg : BackoffConfig) (b : BackoffController) (inputs : List IterInput)
    (h : ∀ inp ∈ inputs, inp.next = true ∧ tplOk inp.tpl = true) :
    attemptedTotal (fastHTTPLoop size argsPath cfg b inputs).1 =
      (inputs.map (materializedSize size)).sum ∧
    deliveredTotal (fastHTTPLoop size argsPath cfg b inputs).1 =
      (inputs.map (deliveredSize size)).sum ∧
    deliveredTotal (fastHTTPLoop size argsPath cfg b inputs).1 ≤
      attemptedTotal (fastHTTPLoop size argsPath cfg b inputs).1 := by
  have key : ∀ (l : List IterInput) (b0 : BackoffController),
      (∀ inp ∈ l, inp.next = true ∧ tplOk inp.tpl = true) →
      attemptedTotal (fastHTTPLoop size argsPath cfg b0 l).1 =
        (l.map (materializedSize size)).sum ∧
      deliveredTotal (fastHTTPLoop size argsPath cfg b0 l).1 =
        (l.map (deliveredSize size)).sum := by
    intro l
    induction l with
    | nil =>
      intro b0 hl
      simp [fastHTTPLoop, attemptedTotal, deliveredTotal]
    | cons inp rest ih =>
      intro b0 hl
      obtain ⟨hnext, htplb⟩ := hl inp (List.mem_cons_self _ _)
      cases htpl : inp.tpl with
      | error e => simp [tplOk, htpl] at htplb
      | ok rc =>
        have ihr := ih (iterBackoff b0 inp.doErr)
          (fun i hi => hl i (List.mem_cons_of_mem _ hi))
        constructor
        · simp only [fastHTTPLoop, hnext, htpl, if_true, List.map_cons, List.sum_cons]
          rw [attemptedTotal_append, attemptedTotal_iterEvents, ihr.1]
          simp [materializedSize, htpl]
        · simp only [fastHTTPLoop, hnext, htpl, if_true, List.map_cons, List.sum_cons]
          rw [deliveredTotal_append, deliveredTotal_iterEvents, ihr.2]
          cases hdo : inp.doErr <;>
            simp [deliveredSize, materializedSize, htpl, hdo]
  refine ⟨(key inputs b h).1, (key inputs b h).2, ?_⟩
  rw [(key inputs b h).1, (key inputs b h).2]
  apply List.sum_le_sum
  intro i hi
  cases hdo : i.doErr <;> simp [deliveredSize, hdo]

theorem fastHTTPLoop_traffic_totals_witness :
    attemptedTotal (fastHTTPLoop demoSize "/t" demoCfg ⟨0⟩ demoInputs).1 = 48 ∧
    deliveredTotal (fastHTTPLoop demoSize "/t" demoCfg ⟨0⟩ demoInputs).1 = 24 := by
  have h := fastHTTPLoop_traffic_totals demoSize "/t" demoCfg ⟨0⟩ demoInputs
    (by decide)
  constructor
  · rw [h.1]; decide
  · rw [h.2.1]; decide

/-- C3: if template evaluation fails on some iteration after any number of
successfully materialized iterations, the loop stops there with the wrapped
template error: no send happens for the failing iteration and none after it
(the transport-call count equals the number of earlier iterations). -/
theorem template_error_aborts_loop (size : RequestConfig → Nat) (argsPath : String)
    (cfg : BackoffConfig) (b : BackoffController) (good : List IterInput)
    (bad : IterInput) (rest : List IterInput) (e : String)
    (hgood : ∀ inp ∈ good, inp.next = true ∧ tplOk inp.tpl = true)
    (hnext : bad.next = true) (htpl : bad.tpl = .error e) :
    (fastHTTPLoop size argsPath cfg b (good ++ bad :: rest)).2 =
      .error ("error executing request template: " ++ e) ∧
    countClientDo (fastHTTPLoop size argsPath cfg b (good ++ bad :: rest)).1 =
      good.length := by
  have key : ∀ (g : List IterInput) (b0 : BackoffController),
      (∀ inp ∈ g, inp.next = true ∧ tplOk inp.tpl = true) →
      (fastHTTPLoop size argsPath cfg b0 (g ++ bad :: rest)).2 =
        .error ("error executing request template: " ++ e) ∧
      countClientDo (fastHTTPLoop size argsPath cfg b0 (g ++ bad :: rest)).1 =
        g.length := by
    intro g
    induction g with
    | nil =>
      intro b0 hg
      simp [fastHTTPLoop, hnext, htpl, countClientDo]
    | cons inp g2 ih =>
      intro b0 hg
      obtain ⟨hn, ht⟩ := hg inp (List.mem_cons_self _ _)
      cases htp : inp.tpl with
      | error e2 => simp [tplOk, htp] at ht
      | ok rc =>
        have ihr := ih (iterBackoff b0 inp.doErr)
          (fun i hi => hg i (List.mem_cons_of_mem _ hi))
        constructor
        · simp only [List.cons_append, fastHTTPLoop, hn, htp, if_true]
          exact ihr.1
        · simp only [List.cons_append, List.append_eq, fastHTTPLoop, hn, htp,
            if_true, List.length_cons]
          rw [countClientDo_append, countClientDo_iterEvents, ihr.2]
          omega
  exact key good b hgood

theorem template_error_aborts_loop_witness :
    (fastHTTPLoop demoSize "/t" demoCfg ⟨0⟩
        (demoInputs ++ [⟨true, .error "boom", none⟩])).2 =
      .error ("error executing request template: " ++ "boom") ∧
    countClientDo (fastHTTPLoop demoSize "/t" demoCfg ⟨0⟩
        (demoInputs ++ [⟨true, .error "boom", none⟩])).1 = demoInputs.length := by
  exact template_error_aborts_loop demoSize "/t" demoCfg ⟨0⟩ demoInputs
    ⟨true, .error "boom", none⟩ [] "boom" (by decide) rfl rfl

theorem fastHTTPLoop_ok_of_tplOk (size : RequestConfig → Nat) (argsPath : String)
    (cfg : BackoffConfig) (inputs : List IterInput) :
    ∀ b, (∀ inp ∈ inputs, tplOk inp.tpl = true) →
      (fastHTTPLoop size argsPath cfg b inputs).2 = .ok () := by
  induction inputs with
  | nil => intro b h; rfl
  | cons inp rest ih =>
    intro b h
    cases hn : inp.next
    · simp [fastHTTPLoop, hn]
    · cases htp : inp.tpl with
      | error e =>
        have := h inp (List.mem_cons_self _ _)
        simp [tplOk, htp] at this
      | ok rc =>
        simp only [fastHTTPLoop, hn, htp, if_true]
        exact ih (iterBackoff b inp.doErr)
          (fun i hi => h i (List.mem_cons_of_mem _ hi))

theorem fastHTTPLoop_error_shape (size : RequestConfig → Nat) (argsPath : String)
    (cfg : BackoffConfig) (inputs : List IterInput) :
    ∀ b e, (fastHTTPLoop size argsPath cfg b inputs).2 = .error e →
      ∃ e2, e = "error executing request template: " ++ e2 := by
  induction inputs with
  | nil =>
    intro b e h
    simp [fastHTTPLoop] at h
  | cons inp rest ih =>
    intro b e h
    cases hn : inp.next
    · simp [fastHTTPLoop, hn] at h
    · cases htp : inp.tpl with
      | error e2 =>
        simp only [fastHTTPLoop, hn, htp, if_true] at h
        exact ⟨e2, (Except.error.inj h).symm⟩
      | ok rc =>
        simp only [fastHTTPLoop, hn, htp, if_true] at h
        exact ih (iterBackoff b inp.doErr) e h

/-- C4: `fastHTTPJob` returns an error only for configuration-time failures
(config parsing or template evaluation); whenever the configuration is good
and every executed template materializes, the run ends in `(nil, nil)` no
matter how many sends fail, and any returned error is either the
configuration error or a wrapped template error. -/
theorem fastHTTPJob_error_only_config (size : RequestConfig → Nat)
    (setup : JobSetup) (inputs : List IterInput) :
    (setup.configErr = none → (∀ inp ∈ inputs, tplOk inp.tpl = true) →
      (fastHTTPJob size setup inputs).2 = .ok ()) ∧
    (∀ e, (fastHTTPJob size setup inputs).2 = .error e →
      setup.configErr = some e ∨
        ∃ e2, e = "error executing request template: " ++ e2) := by
  constructor
  · intro hc h
    simp only [fastHTTPJob, hc]
    exact fastHTTPLoop_ok_of_tplOk size setup.argsPath setup.backoffCfg inputs ⟨0⟩ h
  · intro e h
    cases hc : setup.configErr with
    | some e0 =>
      left
      simp only [fastHTTPJob, hc] at h
      have h2 : e0 = e := by simpa using h
      rw [h2]
    | none =>
      right
      simp only [fastHTTPJob, hc] at h
      exact fastHTTPLoop_error_shape size setup.argsPath setup.backoffCfg inputs ⟨0⟩ e h

theorem fastHTTPJob_error_only_config_witness :
    (fastHTTPJob demoSize ⟨none, false, "/t", demoCfg⟩ demoInputs).2 = .ok () := by
  exact (fastHTTPJob_error_only_config demoSize ⟨none, false, "/t", demoCfg⟩
    demoInputs).1 rfl (by decide)

theorem lookupA_assocSet_self (m : List (String × String)) (k v : String) :
    lookupA (assocSet m k v) k = some v := by
  induction m with
  | nil => simp [assocSet, lookupA]
  | cons kv rest ih =>
    obtain ⟨k1, v1⟩ := kv
    by_cases h : k1 = k
    · simp [assocSet, h, lookupA]
    · simp [assocSet, h, lookupA, ih]

theorem lookupA_assocSet_ne (m : List (String × String)) (k v k2 : String)
    (h : k2 ≠ k) : lookupA (assocSet m k v) k2 = lookupA m k2 := by
  have h2 : ¬ k = k2 := fun hh => h hh.symm
  induction m with
  | nil => simp [assocSet, lookupA, h2]
  | cons kv rest ih =>
    obtain ⟨k1, v1⟩ := kv
    by_cases h1 : k1 = k
    · subst h1
      simp [assocSet, lookupA, h2]
    · simp [assocSet, h1, lookupA, ih]

theorem lookupA_foldl_headerLoaderFunc (hs : List (String × String)) :
    ∀ acc k, lookupA (hs.foldl headerLoaderFunc acc) k =
      match lookupLast hs k with
      | some v => some v
      | none => lookupA acc k := by
  induction hs with
  | nil => intro acc k; simp [lookupLast]
  | cons kv rest ih =>
    intro acc k
    obtain ⟨k1, v1⟩ := kv
    rw [List.foldl_cons, ih]
    cases hl : lookupLast rest k with
    | some v => simp [lookupLast, hl]
    | none =>
      by_cases hk : k1 = k
      · subst hk
        simp [lookupLast, hl, headerLoaderFunc, lookupA_assocSet_self]
      · simp [lookupLast, hl, hk, headerLoaderFunc,
          lookupA_assocSet_ne acc k1 v1 k (fun hh => hk hh.symm)]

theorem lookupA_loadHeaders (hs : List (String × String)) (k : String) :
    lookupA (loadHeaders hs) k = lookupLast hs k := by
  rw [loadHeaders, lookupA_foldl_headerLoaderFunc]
  cases lookupLast hs k <;> simp [lookupA]

theorem loadCookies_fst (now : Nat) (cs : List (String × Option ParsedCookie)) :
    ∀ acc, (cs.foldl (fun acc entry =>
        let r := cookieLoaderFunc now acc.1 entry
        (r.1, acc.2 ++ r.2)) acc).1 =
      cs.foldl (fun m entry => (cookieLoaderFunc now m entry).1) acc.1 := by
  induction cs with
  | nil => intro acc; rfl
  | cons e rest ih =>
    intro acc
    rw [List.foldl_cons, List.foldl_cons, ih]

theorem cookieFold_sound (now : Nat) (cs : List (String × Option ParsedCookie)) :
    ∀ acc k v,
      lookupA (cs.foldl (fun m entry => (cookieLoaderFunc now m entry).1) acc) k =
        some v →
      lookupA acc k = some v ∨
        ∃ c, (k, some c) ∈ cs ∧ c.value = v ∧
          (c.expire = none ∨ ∃ t, c.expire = some t ∧ ¬ t < now) := by
  induction cs with
  | nil =>
    intro acc k v h
    left
    exact h
  | cons e rest ih =>
    intro acc k v h
    rw [List.foldl_cons] at h
    rcases ih _ k v h with h2 | ⟨c, hc, hv, hl⟩
    · obtain ⟨ke, pc⟩ := e
      cases pc with
      | none =>
        left
        exact h2
      | some c =>
        cases hce : c.expire with
        | none =>
          by_cases hk : ke = k
          · subst hk
            simp only [cookieLoaderFunc, hce] at h2
            rw [lookupA_assocSet_self] at h2
            right
            exact ⟨c, List.mem_cons_self _ _, Option.some.inj h2, Or.inl hce⟩
          · simp only [cookieLoaderFunc, hce] at h2
            rw [lookupA_assocSet_ne acc ke c.value k (fun hh => hk hh.symm)] at h2
            left
            exact h2
        | some t =>
          by_cases hlt : t < now
          · simp only [cookieLoaderFunc, hce, if_pos hlt] at h2
            left
            exact h2
          · by_cases hk : ke = k
            · subst hk
              simp only [cookieLoaderFunc, hce, if_neg hlt] at h2
              rw [lookupA_assocSet_self] at h2
              right
              exact ⟨c, List.mem_cons_self _ _, Option.some.inj h2,
                Or.inr ⟨t, hce, hlt⟩⟩
            · simp only [cookieLoaderFunc, hce, if_neg hlt] at h2
              rw [lookupA_assocSet_ne acc ke c.value k (fun hh => hk hh.symm)] at h2
              left
              exact h2
    · right
      exact ⟨c, List.mem_cons_of_mem _ hc, hv, hl⟩

theorem loadCookies_logs (now : Nat) (cs : List (String × Option ParsedCookie)) :
    ∀ acc, (∀ le ∈ acc.2, ∃ k2, le = LogEvent.debugCookieExpired k2) →
      ∀ le ∈ (cs.foldl (fun acc entry =>
          let r := cookieLoaderFunc now acc.1 entry
          (r.1, acc.2 ++ r.2)) acc).2,
        ∃ k2, le = LogEvent.debugCookieExpired k2 := by
  induction cs with
  | nil =>
    intro acc h le hle
    exact h le hle
  | cons e rest ih =>
    intro acc h le hle
    rw [List.foldl_cons] at hle
    refine ih _ ?_ le hle
    intro le2 hle2
    rcases List.mem_append.mp hle2 with h1 | h1
    · exact h le2 h1
    · obtain ⟨ke, pc⟩ := e
      cases pc with
      | none => simp [cookieLoaderFunc] at h1
      | some c =>
        cases hce : c.expire with
        | none => simp [cookieLoaderFunc, hce] at h1
        | some t =>
          by_cases hlt : t < now
          · simp only [cookieLoaderFunc, hce, if_pos hlt, List.mem_singleton] at h1
            exact ⟨ke, h1⟩
          · simp [cookieLoaderFunc, hce, if_neg hlt] at h1

theorem loadCookies_logs_shape (now : Nat) (cs : List (String × Option ParsedCookie)) :
    ∀ le ∈ (loadCookies now cs).2, ∃ k2, le = LogEvent.debugCookieExpired k2 := by
  intro le h
  rw [loadCookies] at h
  exact loadCookies_logs now cs ([], []) (by simp) le h

theorem logsOf_map_logE (l : List LogEvent) : logsOf (l.map Event.logE) = l := by
  induction l with
  | nil => rfl
  | cons x rest ih => simp [logsOf, ih]

/-- C7: when configuration and template evaluation succeed, the single-shot
invocation always returns a nil function error: the transport outcome (nil or
an error) is embedded in the result value next to the response snapshot
instead of being propagated to the caller. -/
theorem singleRequestJob_embeds_transport_error (size : RequestConfig → Nat)
    (s : SingleSetup) (rc : RequestConfig)
    (hc : s.configErr = none) (ht : s.tpl = .ok rc) :
    ∃ res, (singleRequestJob size s).2 = .ok res ∧ res.error = s.doErr := by
  have hres : (singleRequestJob size s).2 =
      .ok { response := { body := s.resp.body, statusCode := s.resp.statusCode,
                          headers := loadHeaders s.resp.headers,
                          cookies := (loadCookies s.now s.resp.cookies).1 },
            error := (sendFastHTTPRequest rc.host rc.method s.doErr).1 } := by
    simp [singleRequestJob, hc, ht]
  refine ⟨_, hres, ?_⟩
  cases hdo : s.doErr <;> simp [sendFastHTTPRequest, hdo]

theorem singleRequestJob_embeds_transport_error_witness :
    ∃ res, (singleRequestJob demoSize demoSingleFail).2 = .ok res ∧
      res.error = some "timeout" := by
  exact singleRequestJob_embeds_transport_error demoSize demoSingleFail demoRC rfl rfl

/-- C8: the snapshot returned by a successful single-shot invocation has the
raw response body and status code, its header map reflects the visited
response headers (later writes for the same key winning, mirroring map
assignment), and its cookie map binds a key only to the value of a response
cookie that parsed and whose expiry is either the unlimited sentinel or not
earlier than the snapshot time — every cookie already expired at snapshot
time is excluded. -/
theorem singleRequestJob_snapshot_matches (size : RequestConfig → Nat)
    (s : SingleSetup) (rc : RequestConfig)
    (hc : s.configErr = none) (ht : s.tpl = .ok rc) :
    ∃ res, (singleRequestJob size s).2 = .ok res ∧
      res.response.body = s.resp.body ∧
      res.response.statusCode = s.resp.statusCode ∧
      (∀ k, lookupA res.response.headers k = lookupLast s.resp.headers k) ∧
      (∀ k v, lookupA res.response.cookies k = some v →
        ∃ c, (k, some c) ∈ s.resp.cookies ∧ c.value = v ∧
          (c.expire = none ∨ ∃ t, c.expire = some t ∧ ¬ t < s.now)) := by
  have hres : (singleRequestJob size s).2 =
      .ok { response := { body := s.resp.body, statusCode := s.resp.statusCode,
                          headers := loadHeaders s.resp.headers,
                          cookies := (loadCookies s.now s.resp.cookies).1 },
            error := (sendFastHTTPRequest rc.host rc.method s.doErr).1 } := by
    simp [singleRequestJob, hc, ht]
  refine ⟨_, hres, rfl, rfl, ?_, ?_⟩
  · intro k
    exact lookupA_loadHeaders s.resp.headers k
  · intro k v h
    rw [loadCookies, loadCookies_fst] at h
    rcases cookieFold_sound s.now s.resp.cookies [] k v h with h2 | h2
    · simp [lookupA] at h2
    · exact h2

theorem singleRequestJob_snapshot_matches_witness :
    ∃ res, (singleRequestJob demoSize demoSingleOk).2 = .ok res ∧
      res.response.body = "hello" ∧ res.response.statusCode = 200 := by
  obtain ⟨res, h1, h2, h3, _⟩ :=
    singleRequestJob_snapshot_matches demoSize demoSingleOk demoRC rfl rfl
  exact ⟨res, h1, h2, h3⟩

/-- C10: a response cookie whose raw value does not parse leaves the cookie
map unchanged and produces no log and no error — in particular the single-shot
invocation still returns a nil function error — and a cookie whose expiry is
the unlimited sentinel is always stored. -/
theorem cookieLoaderFunc_unparseable_and_unlimited (now : Nat)
    (m : List (String × String)) (k v : String) :
    cookieLoaderFunc now m (k, none) = (m, []) ∧
    cookieLoaderFunc now m (k, some ⟨v, none⟩) = (assocSet m k v, []) ∧
    lookupA (assocSet m k v) k = some v ∧
    (∀ size (s : SingleSetup) rc, s.configErr = none → s.tpl = .ok rc →
      ∃ res, (singleRequestJob size s).2 = .ok res) := by
  refine ⟨rfl, rfl, lookupA_assocSet_self m k v, ?_⟩
  intro size s rc hc ht
  refine ⟨{ response := { body := s.resp.body, statusCode := s.resp.statusCode,
                          headers := loadHeaders s.resp.headers,
                          cookies := (loadCookies s.now s.resp.cookies).1 },
            error := (sendFastHTTPRequest rc.host rc.method s.doErr).1 }, ?_⟩
  simp [singleRequestJob, hc, ht]

theorem cookieLoaderFunc_unparseable_and_unlimited_witness :
    cookieLoaderFunc 10 [("a", "b")] ("forever", none) = ([("a", "b")], []) ∧
    lookupA (assocSet [("a", "b")] "forever" "c") "forever" = some "c" := by
  have h := cookieLoaderFunc_unparseable_and_unlimited 10 [("a", "b")] "forever" "c"
  exact ⟨h.1, h.2.2.1⟩

theorem fastHTTPLoop_logs_only_sendError (size : RequestConfig → Nat)
    (argsPath : String) (cfg : BackoffConfig) (inputs : List IterInput) :
    ∀ b le, le ∈ logsOf (fastHTTPLoop size argsPath cfg b inputs).1 →
      ∃ e2, le = LogEvent.debugSendError e2 argsPath := by
  induction inputs with
  | nil =>
    intro b le h
    simp [fastHTTPLoop, logsOf] at h
  | cons inp rest ih =>
    intro b le h
    cases hn : inp.next
    · simp [fastHTTPLoop, hn, logsOf] at h
    · cases htp : inp.tpl with
      | error e => simp [fastHTTPLoop, hn, htp, logsOf] at h
      | ok rc =>
        simp only [fastHTTPLoop, hn, htp, if_true] at h
        rw [logsOf_append] at h
        rcases List.mem_append.mp h with h1 | h1
        · rw [logsOf_iterEvents] at h1
          cases hdo : inp.doErr with
          | none => rw [hdo] at h1; simp at h1
          | some e =>
            rw [hdo] at h1
            simp only [List.mem_singleton] at h1
            exact ⟨e, h1⟩
        · exact ih _ le h1

/-- C5 as stated is false: the `Attacking` announcement is indeed withheld in
the encrypted context, but the send-failure debug log is emitted in every
execution mode and carries the whole job args — which include the target
path — so an encrypted-context run whose send fails produces a log record
with target-identifying detail beyond method and host. -/
theorem encrypted_context_still_logs_target :
    demoEncSetup.encrypted = true ∧
    LogEvent.debugSendError "connection refused" "/secret-target" ∈
      logsOf (fastHTTPJob demoSize demoEncSetup demoInputs).1 ∧
    (logsOf (fastHTTPJob demoSize demoEncSetup demoInputs).1).any
      (mentionsTarget "/secret-target") = true := by
  refine ⟨rfl, ?_, ?_⟩ <;> decide

/-- C5 amended: in the encrypted context the target-announcing printf logs
(`Attacking ...` in the loop, `Sent single http request to ...` in the
single-shot variant) never appear; but the failure debug log, which carries
the job args and hence the target, is emitted on every failed send in every
mode. -/
theorem encrypted_suppresses_announcements (size : RequestConfig → Nat)
    (setup : JobSetup) (inputs : List IterInput) (s : SingleSetup)
    (henc : setup.encrypted = true) (hs : s.encrypted = true) :
    (∀ p, LogEvent.printfAttacking p ∉ logsOf (fastHTTPJob size setup inputs).1) ∧
    (∀ p, LogEvent.printfSentSingle p ∉ logsOf (singleRequestJob size s).1) ∧
    (∀ argsPath cfg b rc e,
      LogEvent.debugSendError e argsPath ∈
        logsOf (iterEvents size argsPath cfg b rc (some e))) := by
  refine ⟨?_, ?_, ?_⟩
  · intro p hmem
    cases hcfg : setup.configErr with
    | some e0 =>
      simp [fastHTTPJob, hcfg, logsOf] at hmem
    | none =>
      simp only [fastHTTPJob, hcfg, henc, if_true, List.nil_append] at hmem
      obtain ⟨e2, he⟩ := fastHTTPLoop_logs_only_sendError size setup.argsPath
        setup.backoffCfg inputs ⟨0⟩ _ hmem
      simp at he
  · intro p hmem
    cases hcfg : s.configErr with
    | some e0 =>
      simp [singleRequestJob, hcfg, logsOf] at hmem
    | none =>
      cases htp : s.tpl with
      | error e0 =>
        simp [singleRequestJob, hcfg, htp, logsOf] at hmem
      | ok rc =>
        simp only [singleRequestJob, hcfg, htp, hs, if_true, List.nil_append] at hmem
        cases hdo : s.doErr
        · rw [hdo] at hmem
          simp only [sendFastHTTPRequest, logsOf, List.append_eq, List.nil_append,
            List.append_nil, logsOf_append, logsOf_map_logE] at hmem
          obtain ⟨k2, hk⟩ := loadCookies_logs_shape s.now s.resp.cookies _ hmem
          simp at hk
        · rw [hdo] at hmem
          simp only [sendFastHTTPRequest, logsOf, List.append_eq, List.nil_append,
            List.append_nil, logsOf_append, logsOf_map_logE] at hmem
          obtain ⟨k2, hk⟩ := loadCookies_logs_shape s.now s.resp.cookies _ hmem
          simp at hk
  · intro argsPath cfg b rc e
    rw [logsOf_iterEvents]
    simp

theorem encrypted_suppresses_announcements_witness :
    LogEvent.printfAttacking "/secret-target" ∉
      logsOf (fastHTTPJob demoSize demoEncSetup demoInputs).1 ∧
    LogEvent.printfSentSingle "/secret-target" ∉
      logsOf (singleRequestJob demoSize demoSingleOk).1 := by
  have h := encrypted_suppresses_announcements demoSize demoEncSetup demoInputs
    demoSingleOk rfl rfl
  exact ⟨h.1 _, h.2.1 _⟩

end DB1000N
